import Mathlib

/-!
Shallow embedding of the frbpoppy survey-detection pipeline and galactic
operations (`frbpoppy/survey_pop.py`, `frbpoppy/galacticops.py`), together
with theorems checking the repository's specification against the code.

Conventions used throughout this development:

* Python/numpy floats are modelled as exact numbers: `ℚ` where the pipeline
  only does arithmetic, comparisons and counting, and `ℝ` where transcendental
  functions (`sin`, `arcsin`, `sqrt`, `exp`, float `**`) appear.
* Fallible operations (Python exceptions such as `ZeroDivisionError` or numpy
  broadcasting errors in masked assignment) are modelled with `Option`:
  `none` stands for a raised exception.
* In-place numpy mutation of an argument array is modelled by state passing:
  the function returns the updated array explicitly.
* The external NE2001 electron-density model (a Fortran black box) is a
  parameter of the embedded functions, as is the per-source content of
  `survey.py` (which is not among the sources; only its caller
  `survey_pop.py` is).  Per-source populations are represented row-wise: a
  `List Source`; applying a boolean mask to such a list filters every field
  in lock-step, which is exactly the population invariant the spec demands.
-/

namespace Frbpoppy

/-- One simulated FRB source: a row of the columnar `FRBs` container
(`population.py`, consumed by `survey_pop.py`).  Fields not yet computed by
the pipeline default to `0`, mirroring arrays that are allocated on first
assignment. -/
structure Source where
  gl : ℚ := 0
  gb : ℚ := 0
  z : ℚ := 0
  dm : ℚ := 0
  t_dm : ℚ := 0
  t_scat : ℚ := 0
  T_sky : ℚ := 0
  T_sys : ℚ := 0
  w_eff : ℚ := 0
  s_peak : ℚ := 0
  fluence : ℚ := 0
  snr : ℚ := 0
deriving DecidableEq

/-- Modelled from the spec: `survey.py` is not among the sources, so the
Survey Observation Model is abstracted as a record of per-source functions
("pure per-source functions parameterized by one immutable Survey Parameters
instance; all operate on whole arrays", spec section 4.3).  `intPro` is the
beam intensity drawn for the i-th surviving source by
`survey.intensity_profile` (a seeded random stream, hence a function of the
position in the array). -/
structure Survey where
  inRegion : Source → Bool
  dmSmear : Source → ℚ
  calcScat : ℚ → ℚ
  calcTs : Source → ℚ × ℚ
  calcWeff : Source → ℚ
  calcSpeak : Source → ℚ
  intPro : ℕ → ℚ
  calcSnr : Source → ℚ
  calcScint : Source → ℚ

/-- Number of `true` entries of a boolean mask (`np.count_nonzero`). -/
def countTrue : List Bool → ℕ
  | [] => 0
  | b :: bs => (if b then 1 else 0) + countTrue bs

/-- Modelled from the spec: `FRBs.apply` of `population.py` is not among the
sources; per the spec it "filters every field array in lock-step and returns
a new, consistent population".  On a row-wise population this is positional
filtering by a boolean mask. -/
def maskFilter : List Bool → List α → List α
  | b :: ms, x :: xs => if b then x :: maskFilter ms xs else maskFilter ms xs
  | _, _ => []

/-- Modelled from the spec: the Rate Record of `rates.py` (not among the
sources), "created empty" — counts of sources rejected at each stage plus
the detected count. -/
structure Rates where
  out : ℕ := 0
  faint : ℕ := 0
  late : ℕ := 0
  det : ℕ := 0
deriving DecidableEq

/-- Modelled from the spec: `Rates.tot`, the "total candidate count"
(all rejection categories plus the detected count). -/
def Rates.tot (r : Rates) : ℕ := r.out + r.faint + r.late + r.det

/-- The signal-chain enrichment of one source (`survey_pop.py` lines 49-79):
DM smearing, optional scattering, temperatures, effective width, peak flux
attenuated by the beam intensity `intPro`, fluence, SNR, optional
scintillation.  No source is rejected here. -/
def enrich (sv : Survey) (scat scin : Bool) (intPro : ℚ) (s : Source) : Source :=
  let s := { s with t_dm := sv.dmSmear s }
  let s := if scat then { s with t_scat := sv.calcScat s.dm } else s
  let s := { s with T_sky := (sv.calcTs s).1, T_sys := (sv.calcTs s).2 }
  let s := { s with w_eff := sv.calcWeff s }
  let s := { s with s_peak := sv.calcSpeak s * intPro }
  let s := { s with fluence := s.s_peak * s.w_eff }
  let s := { s with snr := sv.calcSnr s }
  if scin then { s with snr := sv.calcScint s } else s

/-- Enrichment applied to a whole population, the i-th source receiving the
i-th beam-intensity draw (`int_pro, _ = survey.intensity_profile(...)`
followed by `frbs.s_peak *= int_pro`). -/
def enrichAll (sv : Survey) (scat scin : Bool) (frbs : List Source) : List Source :=
  (List.zip (List.range frbs.length) frbs).map fun p =>
    enrich sv scat scin (sv.intPro p.1) p.2

/-- The rate-limit mask (`survey_pop.py` lines 86-90): the i-th surviving
source survives when the i-th uniform draw of the stream is at most
`1/(1+z)`.  `rng` is the seeded pseudorandom stream, indexed from the
stream position reached when this stage starts (that position depends only
on the number of region survivors, so it is fixed for a fixed population,
survey and seed). -/
def rateMask (rng : ℕ → ℚ) : ℕ → List ℚ → List Bool
  | _, [] => []
  | i, z :: zs => (decide (rng i ≤ 1 / (1 + z))) :: rateMask rng (i + 1) zs

/-- Result of one survey run: the detected population and the rate record. -/
structure RunResult where
  frbs : List Source
  rate : Rates
deriving DecidableEq

/-- The detection pipeline of `SurveyPopulation.__init__`
(`survey_pop.py` lines 44-92): region filter, signal-chain enrichment,
SNR-threshold filter, optional rate-limit filter.  `snrLimit` is
`survey.snr_limit`. -/
def runSurvey (sv : Survey) (snrLimit : ℚ) (scat scin rateLimit : Bool)
    (rng : ℕ → ℚ) (frbs0 : List Source) : RunResult :=
  let regionMask := frbs0.map sv.inRegion
  let frbs1 := maskFilter regionMask frbs0
  let rOut := frbs0.length - countTrue regionMask
  let frbs2 := enrichAll sv scat scin frbs1
  let snrMask := frbs2.map fun s => decide (snrLimit ≤ s.snr)
  let frbs3 := maskFilter snrMask frbs2
  let rFaint := frbs2.length - countTrue snrMask
  let rMask := rateMask rng 0 (frbs3.map fun s => s.z)
  let frbs4 := if rateLimit then maskFilter rMask frbs3 else frbs3
  let rLate := if rateLimit then frbs3.length - countTrue rMask else 0
  { frbs := frbs4,
    rate := { out := rOut, faint := rFaint, late := rLate, det := frbs4.length } }

lemma countTrue_le_length (l : List Bool) : countTrue l ≤ l.length := by
  induction l with
  | nil => simp [countTrue]
  | cons b bs ih =>
    cases b <;> simp [countTrue] <;> omega

lemma length_maskFilter (ms : List Bool) (xs : List α) (h : ms.length = xs.length) :
    (maskFilter ms xs).length = countTrue ms := by
  induction ms generalizing xs with
  | nil => simp [maskFilter, countTrue]
  | cons b bs ih =>
    cases xs with
    | nil => simp at h
    | cons x xs =>
      simp only [List.length_cons, Nat.succ.injEq] at h
      cases b with
      | true =>
        have hm : maskFilter (true :: bs) (x :: xs) = x :: maskFilter bs xs := rfl
        have hc : countTrue (true :: bs) = 1 + countTrue bs := rfl
        rw [hm, hc, List.length_cons, ih xs h]
        omega
      | false =>
        have hm : maskFilter (false :: bs) (x :: xs) = maskFilter bs xs := rfl
        have hc : countTrue (false :: bs) = 0 + countTrue bs := rfl
        rw [hm, hc, ih xs h]
        omega

lemma maskFilter_map (p : α → Bool) (xs : List α) :
    maskFilter (xs.map p) xs = xs.filter p := by
  induction xs with
  | nil => rfl
  | cons x xs ih =>
    by_cases hp : p x = true
    · simp [maskFilter, List.filter_cons, hp, ih]
    · simp only [Bool.not_eq_true] at hp
      simp [maskFilter, List.filter_cons, hp, ih]

lemma length_rateMask (rng : ℕ → ℚ) (i : ℕ) (zs : List ℚ) :
    (rateMask rng i zs).length = zs.length := by
  induction zs generalizing i with
  | nil => rfl
  | cons z zs ih => simp [rateMask, ih]

lemma length_enrichAll (sv : Survey) (scat scin : Bool) (frbs : List Source) :
    (enrichAll sv scat scin frbs).length = frbs.length := by
  simp [enrichAll]

lemma length_filter_mono (p q : α → Bool) (h : ∀ a, p a = true → q a = true)
    (xs : List α) : (xs.filter p).length ≤ (xs.filter q).length := by
  induction xs with
  | nil => simp
  | cons x xs ih =>
    by_cases hp : p x = true
    · have hq := h x hp
      simp [List.filter_cons, hp, hq]
      omega
    · simp only [Bool.not_eq_true] at hp
      cases hq : q x <;> simp [List.filter_cons, hp, hq] <;> omega

/-- C1: for every input population of size N, and any settings of `scat`,
`scin` and `rate_limit`, the rate record of a survey run satisfies
`det + out + faint + late = N` exactly, and `late = 0` when the rate-limit
stage is disabled. -/
theorem rate_conservation (sv : Survey) (snrLimit : ℚ) (scat scin rateLimit : Bool)
    (rng : ℕ → ℚ) (frbs0 : List Source) :
    (runSurvey sv snrLimit scat scin rateLimit rng frbs0).rate.det
      + (runSurvey sv snrLimit scat scin rateLimit rng frbs0).rate.out
      + (runSurvey sv snrLimit scat scin rateLimit rng frbs0).rate.faint
      + (runSurvey sv snrLimit scat scin rateLimit rng frbs0).rate.late
      = frbs0.length
    ∧ (rateLimit = false →
        (runSurvey sv snrLimit scat scin rateLimit rng frbs0).rate.late = 0) := by
  simp only [runSurvey]
  set regionMask := frbs0.map sv.inRegion with hrm
  have hrmlen : regionMask.length = frbs0.length := by simp [hrm]
  set frbs1 := maskFilter regionMask frbs0 with hf1
  have h1 : frbs1.length = countTrue regionMask := length_maskFilter _ _ hrmlen
  have hc1 : countTrue regionMask ≤ frbs0.length := hrmlen ▸ countTrue_le_length _
  set frbs2 := enrichAll sv scat scin frbs1 with hf2
  have h2 : frbs2.length = frbs1.length := length_enrichAll _ _ _ _
  set snrMask := frbs2.map (fun s => decide (snrLimit ≤ s.snr)) with hsm
  have hsmlen : snrMask.length = frbs2.length := by simp [hsm]
  set frbs3 := maskFilter snrMask frbs2 with hf3
  have h3 : frbs3.length = countTrue snrMask := length_maskFilter _ _ hsmlen
  have hc2 : countTrue snrMask ≤ frbs2.length := hsmlen ▸ countTrue_le_length _
  set rMask := rateMask rng 0 (frbs3.map fun s => s.z) with hrk
  have hrklen : rMask.length = frbs3.length := by simp [hrk, length_rateMask]
  have h4 : (maskFilter rMask frbs3).length = countTrue rMask :=
    length_maskFilter _ _ hrklen
  have hc3 : countTrue rMask ≤ frbs3.length := hrklen ▸ countTrue_le_length _
  cases rateLimit with
  | false =>
    rw [if_neg Bool.false_ne_true, if_neg Bool.false_ne_true]
    exact ⟨by omega, fun _ => rfl⟩
  | true =>
    rw [if_pos rfl, if_pos rfl]
    exact ⟨by omega, fun h => Bool.noConfusion h⟩

/-- A concrete survey used to instantiate the universally quantified pipeline
theorems: every source is in the region, the beam is perfect, and the
computed SNR of a source is its `dm` field. -/
def svW : Survey where
  inRegion := fun _ => true
  dmSmear := fun _ => 0
  calcScat := fun d => d
  calcTs := fun _ => (0, 0)
  calcWeff := fun s => s.t_dm
  calcSpeak := fun _ => 1
  intPro := fun _ => 1
  calcSnr := fun s => s.dm
  calcScint := fun s => s.snr

/-- A concrete seeded uniform stream: 1/2, then 9/10 forever. -/
def rngW : ℕ → ℚ := fun n => if n = 0 then 1 / 2 else 9 / 10

/-- A concrete two-source population: redshifts 3/2 and 2/3; under `svW`
their computed SNRs are 5 and 10. -/
def popW : List Source := [{ z := 3 / 2, dm := 5 }, { z := 2 / 3, dm := 10 }]

theorem rate_conservation_witness :
    (runSurvey svW 1 false false false rngW popW).rate.det
      + (runSurvey svW 1 false false false rngW popW).rate.out
      + (runSurvey svW 1 false false false rngW popW).rate.faint
      + (runSurvey svW 1 false false false rngW popW).rate.late = 2
    ∧ (runSurvey svW 1 false false false rngW popW).rate.late = 0 :=
  ⟨(rate_conservation svW 1 false false false rngW popW).1,
   (rate_conservation svW 1 false false false rngW popW).2 rfl⟩

/-- C3 (amended): with the rate-limit stage disabled, raising the SNR
threshold never increases the detected count, for a fixed population,
survey and random stream. -/
theorem snr_threshold_monotone_no_rate_limit (sv : Survey) (scat scin : Bool)
    (rng : ℕ → ℚ) (frbs0 : List Source) (t1 t2 : ℚ) (h : t1 ≤ t2) :
    (runSurvey sv t2 scat scin false rng frbs0).rate.det
      ≤ (runSurvey sv t1 scat scin false rng frbs0).rate.det := by
  simp only [runSurvey, if_neg Bool.false_ne_true, maskFilter_map]
  refine length_filter_mono _ _ (fun s hs => ?_) _
  simp only [decide_eq_true_eq] at hs ⊢
  exact le_trans h hs

theorem snr_threshold_monotone_no_rate_limit_witness :
    (1 : ℚ) ≤ 2 ∧
    (runSurvey svW 2 false false false rngW popW).rate.det
      ≤ (runSurvey svW 1 false false false rngW popW).rate.det :=
  ⟨by norm_num,
   snr_threshold_monotone_no_rate_limit svW false false rngW popW 1 2 (by norm_num)⟩

/-- C3 counterexample: with the rate-limit stage enabled, seeded draws are
consumed positionally from the stream after the faint filter
(`np.random.random(len(frbs.z))`, survey_pop.py line 88), so the same source
receives different draws under different thresholds.  Here raising the SNR
threshold from 1 to 7 strictly increases the detected count: at threshold 1
both sources survive the faint filter, draws (1/2, 9/10) both exceed their
survival probabilities (2/5, 3/5) and nothing is detected; at threshold 7
only the second source survives, gets draw 1/2 ≤ 3/5, and is detected. -/
theorem snr_threshold_monotone_counterexample :
    (1 : ℚ) ≤ 7 ∧
    (runSurvey svW 1 false false true rngW popW).rate.det
      < (runSurvey svW 7 false false true rngW popW).rate.det := by
  have h1 : (runSurvey svW 1 false false true rngW popW).rate.det = 0 := by
    norm_num [runSurvey, svW, popW, rngW, enrichAll, enrich, maskFilter,
      rateMask, countTrue, List.range_succ]
  have h7 : (runSurvey svW 7 false false true rngW popW).rate.det = 1 := by
    norm_num [runSurvey, svW, popW, rngW, enrichAll, enrich, maskFilter,
      rateMask, countTrue, List.range_succ]
  exact ⟨by norm_num, by rw [h1, h7]; exact Nat.zero_lt_one⟩

/-- The two populations owned by one `SurveyPopulation.__init__` run: the
caller's cosmic population and the run's working copy. -/
structure SurveyRunState where
  cosmic : List Source
  surv : List Source

/-- `SurveyPopulation.__init__` with the ownership of the populations made
explicit: `self.frbs = deepcopy(cosmic_pop.frbs)` (survey_pop.py line 37)
makes the working population an independent value copy, so every subsequent
in-place operation (`frbs.apply`, field assignments) rewrites the `surv`
component only; the caller's population is returned unchanged alongside. -/
def surveyPopRun (sv : Survey) (snrLimit : ℚ) (scat scin rateLimit : Bool)
    (rng : ℕ → ℚ) (cosmicFrbs : List Source) : SurveyRunState × Rates :=
  let st : SurveyRunState := { cosmic := cosmicFrbs, surv := cosmicFrbs }
  let res := runSurvey sv snrLimit scat scin rateLimit rng st.surv
  ({ st with surv := res.frbs }, res.rate)

/-- C7: the detection pipeline never mutates its input cosmic population:
after a survey run the caller's population is exactly the one passed in;
the pipeline operated on the deep copy. -/
theorem input_population_unchanged (sv : Survey) (snrLimit : ℚ)
    (scat scin rateLimit : Bool) (rng : ℕ → ℚ) (cosmicFrbs : List Source) :
    ((surveyPopRun sv snrLimit scat scin rateLimit rng cosmicFrbs).1).cosmic
      = cosmicFrbs := rfl

/-- Python float division: dividing by zero raises `ZeroDivisionError`,
modelled as `none`. -/
noncomputable def pyDiv (a b : ℝ) : Option ℝ :=
  if b = 0 then none else some (a / b)

/-- `area_sky = 4*math.pi*(180/math.pi)**2` (survey_pop.py line 95). -/
noncomputable def area_sky : ℝ := 4 * Real.pi * (180 / Real.pi) ^ 2

/-- The rate-scaling epilogue of `SurveyPopulation.__init__`
(survey_pop.py lines 94-107): computes `f_area`, `f_time` and the volume
scaling `vol` from the finished rate record, with every Python float
division modelled by `pyDiv`.  `inside = det + late + faint` (line 97). -/
noncomputable def ratePost (beamSize time volCoMax : ℝ) (r : Rates) :
    Option (ℝ × ℝ × ℝ) :=
  let inside : ℝ := (r.det : ℝ) + (r.late : ℝ) + (r.faint : ℝ)
  (pyDiv (beamSize * (r.tot : ℝ)) (inside * area_sky)).bind fun f_area =>
    (pyDiv 86400 time).bind fun f_time =>
      (pyDiv ((r.tot : ℝ)) (volCoMax * (365.25 * 86400 / time))).bind fun vol =>
        some (f_area, f_time, vol)

/-- All of `SurveyPopulation.__init__`: the detection pipeline followed by
the rate-scaling epilogue.  `none` is an uncaught exception. -/
noncomputable def surveyPopInit (sv : Survey) (snrLimit : ℚ)
    (scat scin rateLimit : Bool) (rng : ℕ → ℚ)
    (beamSize time volCoMax : ℝ) (frbs0 : List Source) :
    Option (RunResult × (ℝ × ℝ × ℝ)) :=
  let res := runSurvey sv snrLimit scat scin rateLimit rng frbs0
  (ratePost beamSize time volCoMax res.rate).map fun p => (res, p)

/-- C2, evaluated at the failing input: on an empty input population the
detection stages do produce an empty detected population and an all-zero
rate record, but the epilogue of `SurveyPopulation.__init__` then computes
`f_area /= (inside*area_sky)` with `inside = det+late+faint = 0` — a
division by zero — so the construction raises instead of completing. -/
theorem empty_population_faults (sv : Survey) (snrLimit : ℚ)
    (scat scin rateLimit : Bool) (rng : ℕ → ℚ) (beamSize time volCoMax : ℝ) :
    (runSurvey sv snrLimit scat scin rateLimit rng []).frbs = []
    ∧ (runSurvey sv snrLimit scat scin rateLimit rng []).rate
        = { out := 0, faint := 0, late := 0, det := 0 }
    ∧ surveyPopInit sv snrLimit scat scin rateLimit rng
        beamSize time volCoMax [] = none := by
  have hrun : runSurvey sv snrLimit scat scin rateLimit rng [] =
      { frbs := [], rate := { out := 0, faint := 0, late := 0, det := 0 } } := by
    cases rateLimit <;> rfl
  refine ⟨by rw [hrun], by rw [hrun], ?_⟩
  simp [surveyPopInit, hrun, ratePost, pyDiv]

/-- Modelled from the spec: the finalized Rate Record of `rates.py` (not
among the sources) also carries the derived scaling factors; `scale`
applies the area and/or time factor to the detected count ("composes these
factors on the raw detected count", spec section 4.5). -/
structure RateRec where
  det : ℚ
  f_area : ℚ
  f_time : ℚ
deriving DecidableEq

/-- Modelled from the spec: `scale(rates, area=..., time=...)` of
`rates.py`. -/
def scale (r : RateRec) (area : Bool) (time : Bool) : RateRec :=
  { r with
    det := r.det * (if area then r.f_area else 1) * (if time then r.f_time else 1) }

/-- `SurveyPopulation.rates` (survey_pop.py lines 109-115), verbatim control
flow: `r` is assigned `scale(self.rate, area=True)` and then, if
`scale_time`, reassigned `scale(self.rate, time=True)` — starting again
from `self.rate`, not from `r`.  `none` models the `NameError` raised when
both flags are false and `r` was never assigned. -/
def ratesMethod (rate : RateRec) (scale_area scale_time : Bool) : Option RateRec :=
  let r0 : Option RateRec := none
  let r1 := if scale_area then some (scale rate true false) else r0
  let r2 := if scale_time then some (scale rate false true) else r1
  r2

/-- C6, evaluated at the failing input: calling `rates` with
`scale_area=True` and `scale_time=True` on a record with `det=4`,
`f_area=1/2`, `f_time=3` returns `det = 12` — the time factor applied to
the raw count, the area scaling discarded — whereas composing both factors
would give `4 * (1/2) * 3 = 6`. -/
theorem rates_scale_overwrites :
    ratesMethod { det := 4, f_area := 1 / 2, f_time := 3 } true true
      = some { det := 12, f_area := 1 / 2, f_time := 3 }
    ∧ (4 : ℚ) * (1 / 2) * 3 = 6
    ∧ (12 : ℚ) ≠ 6 :=
  ⟨by norm_num [ratesMethod, scale], by norm_num, by norm_num⟩

/-! ### Galactic operations (`galacticops.py`)

Transcendental float arithmetic is modelled over `ℝ`; the external NE2001
Fortran routines are abstract function parameters. -/

/-- `np.radians`. -/
noncomputable def radians (x : ℝ) : ℝ := x * (Real.pi / 180)

/-- `np.degrees`. -/
noncomputable def degrees (x : ℝ) : ℝ := x * (180 / Real.pi)

/-- numpy float `%` with a positive divisor: `x % y = x - y * floor (x/y)`,
always in `[0, y)`. -/
noncomputable def npMod (x y : ℝ) : ℝ := x - y * ⌊x / y⌋

/-- `np.arctan2`. -/
noncomputable def arctan2 (y x : ℝ) : ℝ :=
  if 0 < x then Real.arctan (y / x)
  else if x < 0 then
    (if 0 ≤ y then Real.arctan (y / x) + Real.pi else Real.arctan (y / x) - Real.pi)
  else if 0 < y then Real.pi / 2
  else if y < 0 then -(Real.pi / 2)
  else 0

/-- `lb_to_radec` (galacticops.py lines 64-110): galactic longitude/latitude
in degrees to right ascension/declination in degrees, via the J2000
galactic-north-pole direction; `ra` is reduced mod 360, `dec` is reduced
mod 360 and values exceeding 270 are shifted down by 360. -/
noncomputable def lb_to_radec (l b : ℝ) : ℝ × ℝ :=
  let gl := radians l
  let gb := radians b
  let a_ngp := radians (12.9406333 * 15)
  let d_ngp := radians 27.12825
  let l_ngp := radians 123.932
  let sd_ngp := Real.sin d_ngp
  let cd_ngp := Real.cos d_ngp
  let sb := Real.sin gb
  let cb := Real.cos gb
  let y := cb * Real.sin (l_ngp - gl)
  let x := cd_ngp * sb - sd_ngp * cb * Real.cos (l_ngp - gl)
  let ra := npMod (degrees (arctan2 y x + a_ngp)) 360
  let dec0 := npMod (degrees (Real.arcsin (sd_ngp * sb + cd_ngp * cb * Real.cos (l_ngp - gl)))) 360
  let dec := if 270 < dec0 then -(360 - dec0) else dec0
  (ra, dec)

/-- `ne2001_dist_to_dm` (galacticops.py lines 175-211): Gpc → kpc
(`dist *= 1e6`), clamp at 100 kpc, then one call to the external NE2001
`dm_` routine, abstracted as `dmModel dist gl gb`. -/
noncomputable def ne2001_dist_to_dm (dmModel : ℝ → ℝ → ℝ → ℝ)
    (dist gl gb : ℝ) : ℝ :=
  let d := dist * 1e6
  let d2 := if 100 < d then 100 else d
  dmModel d2 gl gb

/-- C4: the distance clamp of `ne2001_dist_to_dm` — for every external model
and every line of sight, a call at 500 kpc (5e-4 Gpc) and a call at 100 kpc
(1e-4 Gpc) reach the model with the same clamped distance, hence return
identical dispersion measures. -/
theorem dist_to_dm_clamp (dmModel : ℝ → ℝ → ℝ → ℝ) (gl gb : ℝ) :
    ne2001_dist_to_dm dmModel (500 * 1e-6) gl gb
      = ne2001_dist_to_dm dmModel (100 * 1e-6) gl gb := by
  have h1 : ((500 : ℝ) * 1e-6) * 1e6 = 500 := by norm_num
  have h2 : ((100 : ℝ) * 1e-6) * 1e6 = 100 := by norm_num
  simp only [ne2001_dist_to_dm, h1, h2]
  rw [if_pos (by norm_num), if_neg (by norm_num)]

/-- The in-place clamp `dist[dist > 100] = 100`. -/
noncomputable def clamp100 (d : ℝ) : ℝ := if 100 < d then 100 else d

/-- `ne2001_get_smtau` (galacticops.py lines 214-269): clamps the caller's
distance array in place (`dist[dist > 100] = 100`), then per source calls
the external `dmdsm_` routine with the galactic coordinates in radians,
abstracted as `smModel glRad gbRad dist = (sm, smtau)`.  Returns the
mutated distance array together with the `sm` and `smtau` arrays. -/
noncomputable def ne2001_get_smtau (smModel : ℝ → ℝ → ℝ → ℝ × ℝ)
    (dist gl gb : List ℝ) : List ℝ × (List ℝ × List ℝ) :=
  let dist2 := dist.map clamp100
  let res := List.zipWith (fun d p => smModel (radians p.1) (radians p.2) d)
    dist2 (gl.zip gb)
  (dist2, (res.map Prod.fst, res.map Prod.snd))

/-- numpy masked assignment of a scalar, `a[mask] = v`. -/
def npWhereSet (a : List α) (mask : List Bool) (v : α) : List α :=
  List.zipWith (fun x m => if m then v else x) a mask

/-- Positional replacement of masked slots by successive values. -/
def assignAt : List α → List Bool → List α → List α
  | [], _, _ => []
  | xs, [], _ => xs
  | x :: xs, m :: ms, vs =>
    if m then
      match vs with
      | v :: vs2 => v :: assignAt xs ms vs2
      | [] => x :: assignAt xs ms []
    else x :: assignAt xs ms vs

/-- numpy masked assignment of an array, `a[mask] = vals`: the value array
must have exactly as many entries as the mask has `true` slots, or a single
entry (broadcast); otherwise numpy raises a boolean-array-indexing
assignment error, modelled as `none`. -/
def npMaskedAssign (a : List α) (mask : List Bool) (vals : List α) :
    Option (List α) :=
  if vals.length = countTrue mask then some (assignAt a mask vals)
  else
    match vals with
    | [v] => some (npWhereSet a mask v)
    | _ => none

/-- `ne2001_scint_time_bw` (galacticops.py lines 272-305): Gpc → kpc in
place (`dist *= 1e6`), scattering measures from `ne2001_get_smtau`, then
the diffractive scintillation timescale and bandwidth.  Arrays of per-source
values use `none` for numpy NaN; the second component of the result is
`none` when a masked assignment raises.  The value arrays assigned into the
masked slots are the full-length arrays
`3.3*(freq/1e3)**1.2 * smtau**(-0.6)` and
`223.*(freq/1e3)**4.4 * sm**(-1.2) / dist`, exactly as in the source. -/
noncomputable def ne2001_scint_time_bw (smModel : ℝ → ℝ → ℝ → ℝ × ℝ)
    (dist gl gb : List ℝ) (freq : ℝ) :
    List ℝ × Option (List (Option ℝ) × List (Option ℝ)) :=
  let distKpc := dist.map (fun d => d * 1e6)
  let r := ne2001_get_smtau smModel distKpc gl gb
  let dist2 := r.1
  let sm := r.2.1
  let smtau := r.2.2
  let scintTime0 : List (Option ℝ) := List.replicate dist2.length (some 1)
  let scintTime1 := npWhereSet scintTime0 (smtau.map fun v => decide (v ≤ 0)) none
  let timeVals : List ℝ :=
    smtau.map fun v => 3.3 * (freq / 1e3) ^ (1.2 : ℝ) * v ^ (-0.6 : ℝ)
  let scintTime? :=
    npMaskedAssign scintTime1 (smtau.map fun v => decide (0 < v)) (timeVals.map some)
  let scintBw0 : List (Option ℝ) := List.replicate dist2.length (some 1)
  let scintBw1 := npWhereSet scintBw0 (sm.map fun v => decide (v ≤ 0)) none
  let bwVals : List ℝ :=
    List.zipWith (fun v d => 223 * (freq / 1e3) ^ (4.4 : ℝ) * v ^ (-1.2 : ℝ) / d) sm dist2
  let scintBw? :=
    npMaskedAssign scintBw1 (sm.map fun v => decide (0 < v)) (bwVals.map some)
  (dist2, scintTime?.bind fun st => scintBw?.map fun bw => (st, bw))

/-- C9: `ne2001_scint_time_bw` multiplies the caller's distance array by 1e6
in place (`dist *= 1e6`, Gpc → kpc) and `ne2001_get_smtau` then clamps it at
100 in place (`dist[dist > 100] = 100`); after a call the caller's array
holds the clamped kpc values elementwise, not the original distances. -/
theorem scint_time_bw_mutates_dist (smModel : ℝ → ℝ → ℝ → ℝ × ℝ)
    (dist gl gb : List ℝ) (freq : ℝ) :
    (ne2001_scint_time_bw smModel dist gl gb freq).1
      = dist.map (fun d => if 100 < d * 1e6 then 100 else d * 1e6)
    ∧ ∀ d2 g2 b2, (ne2001_get_smtau smModel d2 g2 b2).1
        = d2.map (fun d => if 100 < d then 100 else d) := by
  constructor
  · simp [ne2001_scint_time_bw, ne2001_get_smtau, clamp100, List.map_map,
      Function.comp]
  · intro d2 g2 b2
    simp [ne2001_get_smtau, clamp100]

/-- C5, the code evaluated at the failing input: a two-source call whose
NE2001 outputs are `smtau = (1, -1)` and `sm = (1, 1)`.  The masked
assignment `scint_time[smtau > 0.] = 3.3*(freq/1e3)**1.2*smtau**(-0.6)`
tries to put a full-length (2-entry) value array into the single
`smtau > 0` slot — a numpy boolean-indexing broadcast error — so the call
raises instead of returning NaN for the non-positive source and a formula
value for the positive one. -/
theorem scint_time_bw_mixed_faults :
    (ne2001_scint_time_bw (fun _ _ d => (1, 1 - d))
      [0, 2 * 1e-6] [0, 0] [0, 0] 1400).2 = none := by
  norm_num [ne2001_scint_time_bw, ne2001_get_smtau, clamp100, npWhereSet,
    npMaskedAssign, assignAt, countTrue, List.zipWith]

lemma npMod_mem_Ico (x y : ℝ) (hy : 0 < y) : npMod x y ∈ Set.Ico 0 y := by
  have h1 : (⌊x / y⌋ : ℝ) ≤ x / y := Int.floor_le _
  have h2 : x / y < ⌊x / y⌋ + 1 := Int.lt_floor_add_one _
  have hx : y * (x / y) = x := by field_simp
  constructor
  · have h3 := mul_le_mul_of_nonneg_left h1 hy.le
    rw [hx] at h3
    rw [npMod]
    linarith
  · have h4 := mul_lt_mul_of_pos_left h2 hy
    rw [hx] at h4
    rw [npMod]
    nlinarith

lemma degrees_arcsin_mem (t : ℝ) :
    degrees (Real.arcsin t) ∈ Set.Icc (-90 : ℝ) 90 := by
  have hpi := Real.pi_pos
  have hne := Real.pi_ne_zero
  have h1 := Real.neg_pi_div_two_le_arcsin t
  have h2 := Real.arcsin_le_pi_div_two t
  have hc : (0 : ℝ) ≤ 180 / Real.pi := by positivity
  have hlo : -(Real.pi / 2) * (180 / Real.pi) = -90 := by field_simp; ring
  have hhi : (Real.pi / 2) * (180 / Real.pi) = 90 := by field_simp; ring
  constructor
  · have h3 := mul_le_mul_of_nonneg_right h1 hc
    rw [hlo] at h3
    rw [degrees]
    linarith
  · have h3 := mul_le_mul_of_nonneg_right h2 hc
    rw [hhi] at h3
    rw [degrees]
    linarith

lemma dec_normalize (d0 : ℝ) (h1 : -90 ≤ d0) (h2 : d0 ≤ 90) :
    ((if 270 < npMod d0 360 then -(360 - npMod d0 360) else npMod d0 360)
        ∈ Set.Icc (-90 : ℝ) 90)
    ∨ (if 270 < npMod d0 360 then -(360 - npMod d0 360) else npMod d0 360) = 270 := by
  rcases le_or_lt 0 d0 with hpos | hneg
  · have hfloor : ⌊d0 / 360⌋ = 0 := by
      rw [Int.floor_eq_zero_iff]
      refine Set.mem_Ico.mpr ⟨by positivity, ?_⟩
      rw [div_lt_one (by norm_num : (0 : ℝ) < 360)]
      linarith
    have hm : npMod d0 360 = d0 := by rw [npMod, hfloor]; push_cast; ring
    rw [hm, if_neg (by linarith)]
    exact Or.inl ⟨by linarith, h2⟩
  · have hfloor : ⌊d0 / 360⌋ = -1 := by
      refine Int.floor_eq_iff.mpr ⟨?_, ?_⟩
      · push_cast
        rw [neg_le, ← neg_div, div_le_one (by norm_num : (0 : ℝ) < 360)]
        linarith
      · push_cast
        norm_num
        rw [div_lt_iff₀ (by norm_num : (0 : ℝ) < 360)]
        linarith
    have hm : npMod d0 360 = d0 + 360 := by rw [npMod, hfloor]; push_cast; ring
    rcases lt_or_le 270 (d0 + 360) with hgt | hle
    · rw [hm, if_pos hgt]
      have he : -(360 - (d0 + 360)) = d0 := by ring
      rw [he]
      exact Or.inl ⟨h1, h2⟩
    · rw [hm, if_neg (not_lt.mpr hle)]
      exact Or.inr (by linarith)

/-- C8 (amended): for every galactic input the returned right ascension is
in [0, 360), and the returned declination is in [-90, 90] unless the
pre-normalization declination is exactly -90 (a source mapping to the south
celestial pole), in which case the function returns 270. -/
theorem lb_to_radec_ranges (l b : ℝ) :
    (lb_to_radec l b).1 ∈ Set.Ico (0 : ℝ) 360
    ∧ ((lb_to_radec l b).2 ∈ Set.Icc (-90 : ℝ) 90
        ∨ (lb_to_radec l b).2 = 270) := by
  simp only [lb_to_radec]
  constructor
  · exact npMod_mem_Ico _ _ (by norm_num)
  · have hb := degrees_arcsin_mem (Real.sin (radians 27.12825) * Real.sin (radians b)
      + Real.cos (radians 27.12825) * Real.cos (radians b)
        * Real.cos (radians 123.932 - radians l))
    exact dec_normalize _ hb.1 hb.2

/-- C8 counterexample: at galactic input (l, b) = (123.932, 207.12825) the
pre-normalization declination is exactly -90 (the argument of `arcsin` is
-1), `-90 % 360 = 270` is not greater than 270, so the returned declination
is 270, outside [-90, 90]. -/
theorem lb_to_radec_dec_out_of_range :
    (lb_to_radec 123.932 207.12825).2 = 270
    ∧ (270 : ℝ) ∉ Set.Icc (-90 : ℝ) 90 := by
  constructor
  · have hgb : radians 207.12825 = radians 27.12825 + Real.pi := by
      rw [radians, radians]
      have hpi := Real.pi_ne_zero
      field_simp
      ring
    have hsin : Real.sin (radians 207.12825) = -Real.sin (radians 27.12825) := by
      rw [hgb, Real.sin_add_pi]
    have hcos : Real.cos (radians 207.12825) = -Real.cos (radians 27.12825) := by
      rw [hgb, Real.cos_add_pi]
    have harg : Real.sin (radians 27.12825) * Real.sin (radians 207.12825)
        + Real.cos (radians 27.12825) * Real.cos (radians 207.12825)
          * Real.cos (radians 123.932 - radians 123.932) = -1 := by
      rw [sub_self, Real.cos_zero, hsin, hcos]
      have hsc := Real.sin_sq_add_cos_sq (radians 27.12825)
      nlinarith [hsc]
    have hdeg : degrees (-(Real.pi / 2)) = -90 := by
      rw [degrees]
      have hne := Real.pi_ne_zero
      field_simp
      ring
    have hfloor : ⌊(-90 : ℝ) / 360⌋ = -1 := by
      refine Int.floor_eq_iff.mpr ⟨by push_cast; norm_num, by push_cast; norm_num⟩
    simp only [lb_to_radec, harg, Real.arcsin_neg_one, hdeg]
    rw [npMod, hfloor]
    norm_num
  · simp only [Set.mem_Icc]
    norm_num

/-! ### `Redshift` (galacticops.py lines 365-470) -/

/-- The mutable state of a `Redshift` instance. -/
structure Redshift where
  z : ℝ
  H_0 : ℝ
  W_m : ℝ
  W_v : ℝ
  W_r : ℝ
  W_k : ℝ
  c : ℝ
  dcmr : ℝ
  az : ℝ
  dc_mpc : Option ℝ
  dl_mpc : Option ℝ
  v_gpc : Option ℝ

/-- `Redshift.__init__`: `W_r = 0.4165/H_0**2`, `W_k = 1 - W_m - W_r - W_v`,
`dcmr = 0`, `az = 1/(1+z)`, cached distances unset (`None`). -/
noncomputable def mkRedshift (z H_0 W_m W_v : ℝ) : Redshift :=
  { z := z, H_0 := H_0, W_m := W_m, W_v := W_v,
    W_r := 0.4165 / (H_0 * H_0),
    W_k := 1 - W_m - 0.4165 / (H_0 * H_0) - W_v,
    c := 299792.458, dcmr := 0, az := 1 / (1 + z),
    dc_mpc := none, dl_mpc := none, v_gpc := none }

/-- The integration abscissa of step `i` of the `dist_co` loop:
`a = az + (1-az)*(i+0.5)/n` with `n = 1000`. -/
noncomputable def aStep (az : ℝ) (i : ℕ) : ℝ :=
  az + (1 - az) * ((i : ℝ) + 0.5) / 1000

/-- One summand of the `dist_co` loop: `1/(a*adot)` with
`adot = sqrt(W_k + W_m/a + W_r/(a*a) + W_v*a*a)`. -/
noncomputable def distCoTerm (r : Redshift) (a : ℝ) : ℝ :=
  1 / (a * Real.sqrt (r.W_k + r.W_m / a + r.W_r / (a * a) + r.W_v * (a * a)))

/-- The accumulated loop sum of `Redshift.dist_co`. -/
noncomputable def distCoSum (r : Redshift) : ℝ :=
  ∑ i ∈ Finset.range 1000, distCoTerm r (aStep r.az i)

/-- `Redshift.dist_co` (lines 402-416): adds the loop sum onto the existing
`self.dcmr` (which is NOT reset first), rescales by `(1-az)/n`, caches
`dc_mpc` and returns the comoving distance in Gpc. -/
noncomputable def Redshift.dist_co (r : Redshift) : Redshift × ℝ :=
  let dcmr2 := (1 - r.az) * (r.dcmr + distCoSum r) / 1000
  let dc2 := (r.c / r.H_0) * dcmr2
  ({ r with dcmr := dcmr2, dc_mpc := some dc2 }, dc2 * 1e-3)

/-- `Redshift.dist_lum` (lines 418-444): runs `dist_co` only when `dc_mpc`
is still `None`, then applies the curvature correction to `dcmr` and caches
`dl_mpc`. -/
noncomputable def Redshift.dist_lum (r : Redshift) : Redshift × ℝ :=
  let r1 := match r.dc_mpc with
    | none => (Redshift.dist_co r).1
    | some _ => r
  let x := Real.sqrt |r1.W_k| * r1.dcmr
  let ratio :=
    if 0.1 < x then
      (if 0 < r1.W_k then 0.5 * (Real.exp x - Real.exp (-x)) / x
       else Real.sin x / x)
    else
      (let y := if r1.W_k < 0 then -(x * x) else x * x
       1 + y / 6 + y * y / 120)
  let dcmt := ratio * r1.dcmr
  let da := r1.az * dcmt
  let dl := da / (r1.az * r1.az)
  let dl2 := (r1.c / r1.H_0) * dl
  ({ r1 with dl_mpc := some dl2 }, dl2 * 1e-3)

/-- `Redshift.vol_co` (lines 446-470): runs `dist_lum` only when `dl_mpc`
is still `None`, then applies the higher-order curvature correction and
stores `v_gpc`. -/
noncomputable def Redshift.vol_co (r : Redshift) : Redshift × ℝ :=
  let r1 := match r.dl_mpc with
    | none => (Redshift.dist_lum r).1
    | some _ => r
  let x := Real.sqrt |r1.W_k| * r1.dcmr
  let ratio :=
    if 0.1 < x then
      (if 0 < r1.W_k then
        (0.125 * (Real.exp (2 * x) - Real.exp (-(2 * x))) - x / 2) / (x ^ 3 / 3)
       else (x / 2 - Real.sin (2 * x) / 4) / (x ^ 3 / 3))
    else
      (let y := if r1.W_k < 0 then -(x * x) else x * x
       1 + y / 5 + (2 / 105) * y * y)
  let v_cm := ratio * r1.dcmr ^ 3 / 3
  let vg := 4 * Real.pi * (1e-3 * r1.c / r1.H_0) ^ 3 * v_cm
  ({ r1 with v_gpc := some vg }, vg)

lemma aStep_pos_lt_one (az : ℝ) (i : ℕ) (h0 : 0 < az) (h1 : az < 1)
    (hi : i < 1000) : 0 < aStep az i ∧ aStep az i < 1 := by
  have hi' : (i : ℝ) ≤ 999 := by exact_mod_cast Nat.lt_succ_iff.mp hi
  have h1a : (0 : ℝ) < 1 - az := by linarith
  have ht0 : 0 < ((i : ℝ) + 0.5) / 1000 := by positivity
  have ht1 : ((i : ℝ) + 0.5) / 1000 < 1 := by
    rw [div_lt_one (by norm_num : (0 : ℝ) < 1000)]
    linarith
  constructor
  · unfold aStep
    nlinarith [mul_pos h1a ht0]
  · unfold aStep
    nlinarith [mul_lt_mul_of_pos_left ht1 h1a]

lemma distCoTerm_pos (r : Redshift) (a : ℝ) (ha0 : 0 < a) (ha1 : a < 1)
    (hWm : 0 < r.W_m) (hWr : 0 < r.W_r) (hWv : 0 ≤ r.W_v)
    (hWk : r.W_k = -r.W_r) : 0 < distCoTerm r a := by
  have haa : 0 < a * a := mul_pos ha0 ha0
  have hs : 0 < r.W_k + r.W_m / a + r.W_r / (a * a) + r.W_v * (a * a) := by
    rw [hWk]
    have h1 : 0 < r.W_m / a := div_pos hWm ha0
    have haa1 : a * a ≤ 1 := by nlinarith
    have h2 : r.W_r ≤ r.W_r / (a * a) := by
      rw [le_div_iff₀ haa]
      nlinarith [mul_le_mul_of_nonneg_left haa1 hWr.le]
    have h3 : 0 ≤ r.W_v * (a * a) := mul_nonneg hWv haa.le
    linarith
  rw [distCoTerm]
  exact one_div_pos.mpr (mul_pos ha0 (Real.sqrt_pos.mpr hs))

lemma mkRedshift_az_mem (z : ℝ) (hz : 0 < z) :
    0 < (mkRedshift z 67.74 0.3089 0.6911).az
    ∧ (mkRedshift z 67.74 0.3089 0.6911).az < 1 := by
  have h1 : (0 : ℝ) < 1 + z := by linarith
  constructor
  · show (0 : ℝ) < 1 / (1 + z)
    positivity
  · show (1 : ℝ) / (1 + z) < 1
    rw [div_lt_one h1]
    linarith

lemma distCoSum_default_pos (z : ℝ) (hz : 0 < z) :
    0 < distCoSum (mkRedshift z 67.74 0.3089 0.6911) := by
  have haz := mkRedshift_az_mem z hz
  have hWm : 0 < (mkRedshift z 67.74 0.3089 0.6911).W_m := by
    show (0 : ℝ) < 0.3089
    norm_num
  have hWr : 0 < (mkRedshift z 67.74 0.3089 0.6911).W_r := by
    show (0 : ℝ) < 0.4165 / (67.74 * 67.74)
    norm_num
  have hWv : 0 ≤ (mkRedshift z 67.74 0.3089 0.6911).W_v := by
    show (0 : ℝ) ≤ 0.6911
    norm_num
  have hWk : (mkRedshift z 67.74 0.3089 0.6911).W_k
      = -(mkRedshift z 67.74 0.3089 0.6911).W_r := by
    show (1 : ℝ) - 0.3089 - 0.4165 / (67.74 * 67.74) - 0.6911
      = -(0.4165 / (67.74 * 67.74))
    norm_num
  rw [distCoSum]
  refine Finset.sum_pos (fun i hi => ?_) (Finset.nonempty_range_iff.mpr (by norm_num))
  have ha := aStep_pos_lt_one _ i haz.1 haz.2 (Finset.mem_range.mp hi)
  exact distCoTerm_pos _ _ ha.1 ha.2 hWm hWr hWv hWk

lemma dist_co_val (r : Redshift) :
    r.dist_co.2 = (r.c / r.H_0) * ((1 - r.az) * (r.dcmr + distCoSum r) / 1000) * 1e-3 := rfl

lemma dist_co_dcmr (r : Redshift) :
    (r.dist_co.1).dcmr = (1 - r.az) * (r.dcmr + distCoSum r) / 1000 := rfl

lemma dist_co_second_val (r : Redshift) :
    (r.dist_co.1).dist_co.2
      = (r.c / r.H_0) * ((1 - r.az) * ((r.dist_co.1).dcmr + distCoSum r) / 1000) * 1e-3 := rfl

/-- C10: `Redshift.dist_co` is not idempotent — for the default cosmology
and any redshift z > 0, a second call on the same instance returns a
strictly larger comoving distance than the first, because `self.dcmr` is
reused without reset.  In contrast `dist_lum` runs the integration only
when `dc_mpc` is `None` (a `dist_lum` call on a fresh instance leaves the
same accumulator as a single `dist_co`), and a following `vol_co` finds
`dl_mpc` set and leaves the accumulator untouched: the integral is computed
exactly once. -/
theorem dist_co_not_idempotent (z : ℝ) (hz : 0 < z) :
    (mkRedshift z 67.74 0.3089 0.6911).dist_co.2
      < ((mkRedshift z 67.74 0.3089 0.6911).dist_co.1).dist_co.2
    ∧ ((mkRedshift z 67.74 0.3089 0.6911).dist_lum.1).dcmr
        = ((mkRedshift z 67.74 0.3089 0.6911).dist_co.1).dcmr
    ∧ (((mkRedshift z 67.74 0.3089 0.6911).dist_lum.1).vol_co.1).dcmr
        = ((mkRedshift z 67.74 0.3089 0.6911).dist_lum.1).dcmr := by
  refine ⟨?_, rfl, rfl⟩
  have haz := mkRedshift_az_mem z hz
  have hS := distCoSum_default_pos z hz
  have hc : 0 < (mkRedshift z 67.74 0.3089 0.6911).c
      / (mkRedshift z 67.74 0.3089 0.6911).H_0 := by
    show (0 : ℝ) < 299792.458 / 67.74
    norm_num
  have hd0 : (mkRedshift z 67.74 0.3089 0.6911).dcmr = 0 := rfl
  rw [dist_co_val, dist_co_second_val, dist_co_dcmr, hd0]
  have h1a : (0 : ℝ) < 1 - (mkRedshift z 67.74 0.3089 0.6911).az := by
    have := haz.2
    linarith
  nlinarith [mul_pos hc (mul_pos (mul_pos h1a h1a) hS)]

theorem dist_co_not_idempotent_witness :
    (0 : ℝ) < 1
    ∧ ((mkRedshift 1 67.74 0.3089 0.6911).dist_co.2
        < ((mkRedshift 1 67.74 0.3089 0.6911).dist_co.1).dist_co.2
      ∧ ((mkRedshift 1 67.74 0.3089 0.6911).dist_lum.1).dcmr
          = ((mkRedshift 1 67.74 0.3089 0.6911).dist_co.1).dcmr
      ∧ (((mkRedshift 1 67.74 0.3089 0.6911).dist_lum.1).vol_co.1).dcmr
          = ((mkRedshift 1 67.74 0.3089 0.6911).dist_lum.1).dcmr) :=
  ⟨by norm_num, dist_co_not_idempotent 1 (by norm_num)⟩

end Frbpoppy
